import Mathlib

/-!
Shallow embedding of `src/_content/CompanyApp.Components.Chiefdom.Dashboards/leafletInterop.js`.

The module keeps a global registry `maps` from map id (a DOM element id) to
`{ map, layers }` and forwards each call to the Leaflet library.  We embed the
registry as an association list with JavaScript-object update semantics, and we
embed the opaque Leaflet handles (maps, markers, circles) as data: each handle
gets a fresh numeric identity from an allocation counter, and a map records the
identities of the overlay layers attached to it (`addTo` / `removeLayer`).

The wrapped Leaflet library itself is an external black box; where an operation
delegates a computation to it (`featureGroup(...).getBounds()`, `pad(0.1)`,
`fitBounds`), we model the library call as data recorded on the map handle, with
the bounds computation modelled from its documented behaviour (smallest
latitude/longitude box covering the layer coordinates, padded by a fraction of
its extent on each side).

Numbers crossing the interop boundary (latitudes, longitudes, zoom, radius,
opacity) are embedded as rationals.  JavaScript string parameters that the code
tests for truthiness (`popupContent`, `markerData.title`, `markerData.popup`)
are embedded as `Option String`, with `none` standing for `undefined`/`null`;
string truthiness is `some s` with `s ≠ ""`.
-/

/-- The two diagnostic errors the module can report via `console.error`. -/
inductive ErrKind where
  | SurfaceNotFound
  | MapNotInitialized
deriving DecidableEq, Repr

/-- A tile layer as configured by `initializeMap` (`L.tileLayer(url, opts)`). -/
structure TileLayer where
  urlTemplate : String
  attrib : String
  maxZoom : Nat
deriving DecidableEq, Repr

/-- The current viewport of a Leaflet map: either a center/zoom set by
`setView`, or a bounding region applied by `map.fitBounds`. -/
inductive View where
  | centerZoom (lat lng zoom : Rat)
  | fitted (south west north east : Rat)
deriving DecidableEq, Repr

/-- The data of an overlay layer handle: a marker (`L.marker`) or a circle
(`L.circle`).  `popup` is the content bound by `bindPopup`, when any. -/
inductive LayerData where
  | marker (lat lng : Rat) (title : Option String) (popup : Option String)
  | circle (lat lng radius : Rat) (color fillColor : String) (fillOpacity : Rat)
deriving DecidableEq, Repr

/-- An overlay layer handle: a fresh identity together with its data. -/
abbrev Layer := Nat × LayerData

/-- A Leaflet map handle: identity, current viewport, tile layers, and the
identities of the overlay layers currently attached to it. -/
structure LMap where
  hid : Nat
  view : View
  tiles : List TileLayer
  attached : List Nat
deriving DecidableEq, Repr

/-- One registry entry: `maps[mapId] = { map: map, layers: [] }`. -/
structure MapEntry where
  map : LMap
  layers : List Layer
deriving DecidableEq, Repr

/-- The module state: the global `maps` registry plus the handle allocator. -/
structure St where
  maps : List (String × MapEntry)
  nextId : Nat
deriving DecidableEq, Repr

/-- The initial state: `let maps = {}`. -/
def St.empty : St := { maps := [], nextId := 0 }

/-- An element of the `markers` array passed to `addMarkers`. -/
structure MarkerInput where
  lat : Rat
  lng : Rat
  title : Option String
  popup : Option String
deriving DecidableEq, Repr

/-- A deferred continuation scheduled by `setTimeout(k, delayMs)`. -/
inductive Pending where
  | init (mapId : String) (lat lng zoom : Rat) (delayMs : Nat)
deriving DecidableEq, Repr

/-- Registry read `maps[mapId]`: value at the first matching key. -/
def lookupMap : List (String × MapEntry) → String → Option MapEntry
  | [], _ => none
  | p :: ps, k => if p.1 = k then some p.2 else lookupMap ps k

/-- Registry write `maps[mapId] = v`: replace the value at an existing key in
place, or append a new binding. -/
def setMap : List (String × MapEntry) → String → MapEntry → List (String × MapEntry)
  | [], k, v => [(k, v)]
  | p :: ps, k, v => if p.1 = k then (k, v) :: ps else p :: setMap ps k v

/-- JavaScript truthiness of an optional string argument. -/
def strTruthy : Option String → Bool
  | some s => s != ""
  | none => false

/-- The tile layer `initializeMap` attaches (OpenStreetMap, `maxZoom: 18`). -/
def defaultTile : TileLayer :=
  { urlTemplate := "https://{s}.tile.openstreetmap.org/{z}/{x}/{y}.png"
    attrib := "&copy; <a href=\"https://www.openstreetmap.org/copyright\">OpenStreetMap</a> contributors"
    maxZoom := 18 }

/-- `L.map(mapId).setView([latitude, longitude], zoom)` followed by attaching
the default tile layer: a fresh map handle. -/
def mkMap (h : Nat) (lat lng zoom : Rat) : LMap :=
  { hid := h, view := .centerZoom lat lng zoom, tiles := [defaultTile], attached := [] }

/-- `initializeMap(mapId, latitude, longitude, zoom)`: the synchronous part of
the call.  The entire body is wrapped in `setTimeout(..., 100)`, so the call
itself only schedules the deferred attempt and mutates nothing. -/
def initializeMap (st : St) (mapId : String) (lat lng zoom : Rat) : St × Pending :=
  (st, .init mapId lat lng zoom 100)

/-- The body of the `setTimeout` callback in `initializeMap`, run when the
timer fires.  `dom` is the set of element ids present in the document at that
moment (`document.getElementById(mapId)` succeeds iff `mapId ∈ dom`). -/
def initializeMapDeferred (dom : List String) (st : St) (mapId : String)
    (lat lng zoom : Rat) : St × Option ErrKind :=
  if mapId ∈ dom then
    match lookupMap st.maps mapId with
    | some _ => (st, none)
    | none =>
        let m := mkMap st.nextId lat lng zoom
        ({ maps := setMap st.maps mapId { map := m, layers := [] }
           nextId := st.nextId + 1 }, none)
  else
    (st, some .SurfaceNotFound)

/-- `addMarker(mapId, latitude, longitude, title, popupContent)`. -/
def addMarker (st : St) (mapId : String) (lat lng : Rat)
    (title popupContent : Option String) : St × Option ErrKind :=
  match lookupMap st.maps mapId with
  | none => (st, some .MapNotInitialized)
  | some mapData =>
      let h := st.nextId
      let marker : Layer :=
        (h, .marker lat lng title (if strTruthy popupContent then popupContent else none))
      let entry : MapEntry :=
        { map := { mapData.map with attached := mapData.map.attached ++ [h] }
          layers := mapData.layers ++ [marker] }
      ({ maps := setMap st.maps mapId entry, nextId := h + 1 }, none)

/-- The body of the `markers.forEach` loop in `addMarkers`: create one marker
(`title: markerData.title || ''`), attach it, bind its popup if truthy, and
push it onto `layers`. -/
def addMarkersStep (acc : MapEntry × Nat) (m : MarkerInput) : MapEntry × Nat :=
  let h := acc.2
  let marker : Layer :=
    (h, .marker m.lat m.lng (some (m.title.getD ""))
          (if strTruthy m.popup then m.popup else none))
  ({ map := { acc.1.map with attached := acc.1.map.attached ++ [h] }
     layers := acc.1.layers ++ [marker] }, h + 1)

/-- `addMarkers(mapId, markers)`. -/
def addMarkers (st : St) (mapId : String) (markers : List MarkerInput) :
    St × Option ErrKind :=
  match lookupMap st.maps mapId with
  | none => (st, some .MapNotInitialized)
  | some mapData =>
      let r := markers.foldl addMarkersStep (mapData, st.nextId)
      ({ maps := setMap st.maps mapId r.1, nextId := r.2 }, none)

/-- `addCircle(mapId, latitude, longitude, radius, color, fillColor, fillOpacity)`. -/
def addCircle (st : St) (mapId : String) (lat lng radius : Rat)
    (color fillColor : String) (fillOpacity : Rat) : St × Option ErrKind :=
  match lookupMap st.maps mapId with
  | none => (st, some .MapNotInitialized)
  | some mapData =>
      let h := st.nextId
      let circ : Layer := (h, .circle lat lng radius color fillColor fillOpacity)
      let entry : MapEntry :=
        { map := { mapData.map with attached := mapData.map.attached ++ [h] }
          layers := mapData.layers ++ [circ] }
      ({ maps := setMap st.maps mapId entry, nextId := h + 1 }, none)

/-- `mapData.layers.forEach(layer => mapData.map.removeLayer(layer))`:
detach each of the given handles from the attachment record, in order. -/
def removeLayers (att : List Nat) (ls : List Layer) : List Nat :=
  ls.foldl (fun a l => a.filter (fun h => h ≠ l.1)) att

/-- `clearMap(mapId)`. -/
def clearMap (st : St) (mapId : String) : St × Option ErrKind :=
  match lookupMap st.maps mapId with
  | none => (st, some .MapNotInitialized)
  | some mapData =>
      let entry : MapEntry :=
        { map := { mapData.map with attached := removeLayers mapData.map.attached mapData.layers }
          layers := [] }
      ({ maps := setMap st.maps mapId entry, nextId := st.nextId }, none)

/-- The coordinate of a layer handle (a marker's position, a circle's center). -/
def layerPt : Layer → Rat × Rat
  | (_, .marker lat lng _ _) => (lat, lng)
  | (_, .circle lat lng _ _ _ _) => (lat, lng)

/-- A latitude/longitude bounding box (south-west and north-east corners). -/
structure Bounds where
  south : Rat
  west : Rat
  north : Rat
  east : Rat
deriving DecidableEq, Repr

/-- Extend a box to cover one more coordinate. -/
def growBounds (b : Bounds) (p : Rat × Rat) : Bounds :=
  { south := min b.south p.1, west := min b.west p.2
    north := max b.north p.1, east := max b.east p.2 }

/-- Modelled from the spec: `L.featureGroup(layers).getBounds()` of the wrapped
library — the smallest box covering all the group's layer coordinates; `none`
for an empty group. -/
def groupBounds (ls : List Layer) : Option Bounds :=
  match ls.map layerPt with
  | [] => none
  | p :: ps =>
      some (ps.foldl growBounds
        { south := p.1, west := p.2, north := p.1, east := p.2 })

/-- Modelled from the spec: `bounds.pad(f)` of the wrapped library — the box
extended on each side by the fraction `f` of its height and width. -/
def padBounds (b : Bounds) (f : Rat) : Bounds :=
  let hBuf := |b.south - b.north| * f
  let wBuf := |b.west - b.east| * f
  { south := b.south - hBuf, west := b.west - wBuf
    north := b.north + hBuf, east := b.east + wBuf }

/-- `fitBounds(mapId)`. -/
def fitBounds (st : St) (mapId : String) : St × Option ErrKind :=
  match lookupMap st.maps mapId with
  | none => (st, some .MapNotInitialized)
  | some mapData =>
      if 0 < mapData.layers.length then
        match groupBounds mapData.layers with
        | none => (st, none)
        | some b =>
            let padded := padBounds b (1 / 10)
            let entry : MapEntry :=
              { map := { mapData.map with
                          view := .fitted padded.south padded.west padded.north padded.east }
                layers := mapData.layers }
            ({ maps := setMap st.maps mapId entry, nextId := st.nextId }, none)
      else
        (st, none)

/-- The marker layer the `addMarkers` loop builds from one input element. -/
def mkMarkerLayer (n : Nat) (m : MarkerInput) : Layer :=
  (n, .marker m.lat m.lng (some (m.title.getD ""))
        (if strTruthy m.popup then m.popup else none))

/-- The layers the `addMarkers` loop appends, with identities from `n` on. -/
def mkMarkers : Nat → List MarkerInput → List Layer
  | _, [] => []
  | n, m :: ms => mkMarkerLayer n m :: mkMarkers (n + 1) ms

/-- The box `b` covers the coordinate `p`. -/
def inBounds (b : Bounds) (p : Rat × Rat) : Prop :=
  b.south ≤ p.1 ∧ p.1 ≤ b.north ∧ b.west ≤ p.2 ∧ p.2 ≤ b.east

instance (b : Bounds) (p : Rat × Rat) : Decidable (inBounds b p) := by
  unfold inBounds; infer_instance

/-- The popup content bound to a layer handle, when any. -/
def layerPopup : LayerData → Option String
  | .marker _ _ _ popup => popup
  | .circle _ _ _ _ _ _ => none

/-- The ownership invariant of the registry: every layer handle in an entry's
`layers` is attached to the map handle of that same entry, and never to the
map handle of an entry with a different key. -/
def LayersOwn (st : St) : Prop :=
  ∀ p ∈ st.maps, ∀ l ∈ p.2.layers,
    l.1 ∈ p.2.map.attached ∧
    ∀ q ∈ st.maps, q.1 ≠ p.1 → l.1 ∉ q.2.map.attached

/-- Auxiliary freshness invariant: every handle identity found in the registry
is below the allocation counter. -/
def IdsFresh (st : St) : Prop :=
  ∀ p ∈ st.maps,
    (∀ h ∈ p.2.map.attached, h < st.nextId) ∧ ∀ l ∈ p.2.layers, l.1 < st.nextId

/-- The registry invariant: ownership together with allocator freshness. -/
def RegInv (st : St) : Prop := LayersOwn st ∧ IdsFresh st

/-- A small concrete entry used to instantiate theorems with hypotheses:
one initialized map holding one marker layer. -/
def sampleEntry : MapEntry :=
  { map := { hid := 0, view := .centerZoom 10 20 5, tiles := [defaultTile], attached := [1] }
    layers := [(1, .marker 1 2 (some "t") (some "p"))] }

/-- A small concrete state: the registry maps `"m1"` to `sampleEntry`. -/
def sampleSt : St := { maps := [("m1", sampleEntry)], nextId := 2 }

/-! ### Registry lemmas -/

theorem lookupMap_setMap_self (m : List (String × MapEntry)) (k : String) (v : MapEntry) :
    lookupMap (setMap m k v) k = some v := by
  induction m with
  | nil => simp [setMap, lookupMap]
  | cons p ps ih =>
      by_cases h : p.1 = k
      · simp [setMap, lookupMap, h]
      · simp [setMap, lookupMap, h, ih]

theorem lookupMap_setMap_ne (m : List (String × MapEntry)) (k k' : String) (v : MapEntry)
    (h : k' ≠ k) : lookupMap (setMap m k v) k' = lookupMap m k' := by
  induction m with
  | nil => simp [setMap, lookupMap, Ne.symm h]
  | cons p ps ih =>
      by_cases hp : p.1 = k
      · subst hp
        simp [setMap, lookupMap, Ne.symm h]
      · simp [setMap, lookupMap, hp, ih]

theorem mem_setMap (m : List (String × MapEntry)) (k : String) (v : MapEntry)
    (p : String × MapEntry) (hp : p ∈ setMap m k v) : p = (k, v) ∨ p ∈ m := by
  induction m with
  | nil => simpa [setMap] using hp
  | cons q qs ih =>
      by_cases hq : q.1 = k
      · rw [setMap, if_pos hq] at hp
        rcases List.mem_cons.1 hp with h | h
        · exact Or.inl h
        · exact Or.inr (List.mem_cons_of_mem _ h)
      · rw [setMap, if_neg hq] at hp
        rcases List.mem_cons.1 hp with h | h
        · exact Or.inr (h ▸ List.mem_cons_self _ _)
        · rcases ih h with h' | h'
          · exact Or.inl h'
          · exact Or.inr (List.mem_cons_of_mem _ h')

theorem lookupMap_mem (m : List (String × MapEntry)) (k : String) (v : MapEntry)
    (h : lookupMap m k = some v) : (k, v) ∈ m := by
  induction m with
  | nil => simp [lookupMap] at h
  | cons p ps ih =>
      obtain ⟨a, b⟩ := p
      by_cases hp : a = k
      · simp [lookupMap, hp] at h
        simp [hp, h]
      · simp [lookupMap, hp] at h
        exact List.mem_cons_of_mem _ (ih h)

theorem lookupMap_eq_none_iff (m : List (String × MapEntry)) (k : String) :
    lookupMap m k = none ↔ ∀ p ∈ m, p.1 ≠ k := by
  induction m with
  | nil => simp [lookupMap]
  | cons p ps ih =>
      by_cases hp : p.1 = k
      · simp [lookupMap, hp]
      · simp [lookupMap, hp, ih]

theorem setMap_of_not_mem (m : List (String × MapEntry)) (k : String) (v : MapEntry)
    (h : lookupMap m k = none) : setMap m k v = m ++ [(k, v)] := by
  induction m with
  | nil => simp [setMap]
  | cons p ps ih =>
      rw [lookupMap] at h
      by_cases hp : p.1 = k
      · rw [if_pos hp] at h; exact absurd h (by simp)
      · rw [if_neg hp] at h
        simp [setMap, hp, ih h]

/-! ### The `addMarkers` loop in closed form -/

theorem mkMarkers_length (n : Nat) (ms : List MarkerInput) :
    (mkMarkers n ms).length = ms.length := by
  induction ms generalizing n with
  | nil => rfl
  | cons m ms ih => simp [mkMarkers, ih]

theorem mkMarkers_get (n : Nat) (ms : List MarkerInput) (i : Nat) (h : i < ms.length) :
    (mkMarkers n ms).get ⟨i, by rw [mkMarkers_length]; exact h⟩ =
      mkMarkerLayer (n + i) (ms.get ⟨i, h⟩) := by
  induction ms generalizing n i with
  | nil => simp at h
  | cons m ms ih =>
      cases i with
      | zero => simp [mkMarkers]
      | succ j =>
          have hj : j < ms.length := Nat.lt_of_succ_lt_succ h
          have := ih (n + 1) j hj
          simpa [mkMarkers, Nat.add_assoc, Nat.add_comm 1 j] using this

theorem mem_mkMarkers_fst (n : Nat) (ms : List MarkerInput) (l : Layer)
    (h : l ∈ mkMarkers n ms) : n ≤ l.1 ∧ l.1 < n + ms.length := by
  induction ms generalizing n with
  | nil => simp [mkMarkers] at h
  | cons m ms ih =>
      rcases List.mem_cons.1 h with rfl | h'
      · show n ≤ n ∧ n < n + (ms.length + 1)
        omega
      · have := ih (n + 1) h'
        show n ≤ l.1 ∧ l.1 < n + (ms.length + 1)
        omega

theorem addMarkers_foldl (e : MapEntry) (n : Nat) (ms : List MarkerInput) :
    ms.foldl addMarkersStep (e, n) =
      ({ map := { e.map with attached := e.map.attached ++ (mkMarkers n ms).map Prod.fst }
         layers := e.layers ++ mkMarkers n ms }, n + ms.length) := by
  induction ms generalizing e n with
  | nil => simp [mkMarkers]
  | cons m ms ih =>
      rw [List.foldl_cons]
      have step : addMarkersStep (e, n) m =
          ({ map := { e.map with attached := e.map.attached ++ [n] }
             layers := e.layers ++ [mkMarkerLayer n m] }, n + 1) := rfl
      rw [step, ih]
      simp [mkMarkers, mkMarkerLayer, List.append_assoc]
      omega

/-! ### `clearMap` detachment lemmas -/

theorem removeLayers_cons (att : List Nat) (l : Layer) (ls : List Layer) :
    removeLayers att (l :: ls) = removeLayers (att.filter (fun h => h ≠ l.1)) ls := rfl

theorem removeLayers_subset (ls : List Layer) (att : List Nat) :
    removeLayers att ls ⊆ att := by
  induction ls generalizing att with
  | nil => simp [removeLayers]
  | cons l ls ih =>
      intro x hx
      rw [removeLayers_cons] at hx
      exact List.mem_of_mem_filter (ih _ hx)

theorem not_mem_removeLayers (att : List Nat) (ls : List Layer) (l : Layer)
    (hl : l ∈ ls) : l.1 ∉ removeLayers att ls := by
  induction ls generalizing att with
  | nil => simp at hl
  | cons a as ih =>
      rw [removeLayers_cons]
      rcases List.mem_cons.1 hl with rfl | h
      · intro hmem
        have hf := removeLayers_subset as _ hmem
        have := List.of_mem_filter hf
        simp at this
      · exact ih _ h

/-! ### Bounding-box lemmas -/

theorem inBounds_growBounds_of (b : Bounds) (p q : Rat × Rat) (h : inBounds b q) :
    inBounds (growBounds b p) q := by
  obtain ⟨h1, h2, h3, h4⟩ := h
  refine ⟨?_, ?_, ?_, ?_⟩ <;> simp [growBounds]
  · exact Or.inl h1
  · exact Or.inl h2
  · exact Or.inl h3
  · exact Or.inl h4

theorem inBounds_growBounds_self (b : Bounds) (p : Rat × Rat) :
    inBounds (growBounds b p) p := by
  refine ⟨?_, ?_, ?_, ?_⟩ <;> simp [growBounds]

theorem inBounds_foldl_of (ps : List (Rat × Rat)) (b : Bounds) (q : Rat × Rat)
    (h : inBounds b q) : inBounds (ps.foldl growBounds b) q := by
  induction ps generalizing b with
  | nil => simpa using h
  | cons p ps ih => exact ih _ (inBounds_growBounds_of _ _ _ h)

theorem inBounds_foldl_mem (ps : List (Rat × Rat)) (b : Bounds) (p : Rat × Rat)
    (h : p ∈ ps) : inBounds (ps.foldl growBounds b) p := by
  induction ps generalizing b with
  | nil => simp at h
  | cons a as ih =>
      rcases List.mem_cons.1 h with rfl | h'
      · exact inBounds_foldl_of as (growBounds b p) p (inBounds_growBounds_self b p)
      · exact ih (growBounds b a) h'

theorem groupBounds_covers (ls : List Layer) (b : Bounds)
    (h : groupBounds ls = some b) (l : Layer) (hl : l ∈ ls) :
    inBounds b (layerPt l) := by
  unfold groupBounds at h
  cases hm : ls.map layerPt with
  | nil =>
      rw [hm] at h; exact absurd h (by simp)
  | cons p ps =>
      rw [hm] at h
      obtain rfl : ps.foldl growBounds
          { south := p.1, west := p.2, north := p.1, east := p.2 } = b := by
        injection h
      have hmem : layerPt l ∈ ls.map layerPt := List.mem_map_of_mem _ hl
      rw [hm] at hmem
      rcases List.mem_cons.1 hmem with heq | hmem'
      · rw [heq]
        exact inBounds_foldl_of _ _ _ ⟨le_refl _, le_refl _, le_refl _, le_refl _⟩
      · exact inBounds_foldl_mem _ _ _ hmem'

/-! ### Claim theorems -/

/-- C1: for every map id with no entry in the registry, each of `addMarker`,
`addMarkers`, `addCircle`, `clearMap` and `fitBounds` reports
`MapNotInitialized` and returns the state unchanged (every entry and every
layers list unchanged); no fatal fault is raised (every operation is total). -/
theorem C1_uninitialized_ops_report_and_preserve (st : St) (mapId : String)
    (h : lookupMap st.maps mapId = none) :
    (∀ lat lng title popup,
        addMarker st mapId lat lng title popup = (st, some .MapNotInitialized)) ∧
    (∀ ms, addMarkers st mapId ms = (st, some .MapNotInitialized)) ∧
    (∀ lat lng r c fc fo,
        addCircle st mapId lat lng r c fc fo = (st, some .MapNotInitialized)) ∧
    clearMap st mapId = (st, some .MapNotInitialized) ∧
    fitBounds st mapId = (st, some .MapNotInitialized) := by
  refine ⟨?_, ?_, ?_, ?_, ?_⟩ <;> intros <;>
    simp [addMarker, addMarkers, addCircle, clearMap, fitBounds, h]

theorem C1_witness :
    lookupMap St.empty.maps "m0" = none ∧
    addMarker St.empty "m0" 1 2 (some "t") (some "p") = (St.empty, some .MapNotInitialized) ∧
    addMarkers St.empty "m0" [⟨1, 1, none, none⟩] = (St.empty, some .MapNotInitialized) ∧
    addCircle St.empty "m0" 1 2 500 "red" "red" (3 / 10) = (St.empty, some .MapNotInitialized) ∧
    clearMap St.empty "m0" = (St.empty, some .MapNotInitialized) ∧
    fitBounds St.empty "m0" = (St.empty, some .MapNotInitialized) :=
  ⟨rfl,
   (C1_uninitialized_ops_report_and_preserve St.empty "m0" rfl).1 1 2 (some "t") (some "p"),
   (C1_uninitialized_ops_report_and_preserve St.empty "m0" rfl).2.1 [⟨1, 1, none, none⟩],
   (C1_uninitialized_ops_report_and_preserve St.empty "m0" rfl).2.2.1 1 2 500 "red" "red" (3 / 10),
   (C1_uninitialized_ops_report_and_preserve St.empty "m0" rfl).2.2.2.1,
   (C1_uninitialized_ops_report_and_preserve St.empty "m0" rfl).2.2.2.2⟩

/-- C2: once a first (deferred) `initialize` attempt has created the entry for
`mapId`, a subsequent `initialize` attempt for the same id is a no-op: the
state is unchanged, the registry holds exactly one entry for `mapId`, and that
entry still has the original center `(lat₁, lng₁)` and zoom `z₁` with no
layers; no second map handle is created. -/
theorem C2_reinitialize_noop (st : St) (dom₁ dom₂ : List String) (mapId : String)
    (lat₁ lng₁ z₁ lat₂ lng₂ z₂ : Rat)
    (h : lookupMap st.maps mapId = none) (hdom : mapId ∈ dom₁) :
    (initializeMapDeferred dom₂ (initializeMapDeferred dom₁ st mapId lat₁ lng₁ z₁).1
        mapId lat₂ lng₂ z₂).1 = (initializeMapDeferred dom₁ st mapId lat₁ lng₁ z₁).1 ∧
    lookupMap (initializeMapDeferred dom₁ st mapId lat₁ lng₁ z₁).1.maps mapId =
      some { map := mkMap st.nextId lat₁ lng₁ z₁, layers := [] } ∧
    (initializeMapDeferred dom₁ st mapId lat₁ lng₁ z₁).1.maps.countP
      (fun p => p.1 == mapId) = 1 := by
  have hset : (initializeMapDeferred dom₁ st mapId lat₁ lng₁ z₁).1 =
      { maps := setMap st.maps mapId { map := mkMap st.nextId lat₁ lng₁ z₁, layers := [] }
        nextId := st.nextId + 1 } := by
    simp [initializeMapDeferred, hdom, h]
  refine ⟨?_, ?_, ?_⟩
  · rw [hset]
    by_cases hdom₂ : mapId ∈ dom₂ <;>
      simp [initializeMapDeferred, hdom₂, lookupMap_setMap_self]
  · rw [hset]
    exact lookupMap_setMap_self _ _ _
  · rw [hset]
    show (setMap st.maps mapId _).countP (fun p => p.1 == mapId) = 1
    rw [setMap_of_not_mem _ _ _ h, List.countP_append]
    have h0 : st.maps.countP (fun p => p.1 == mapId) = 0 := by
      rw [List.countP_eq_zero]
      intro a ha
      have := (lookupMap_eq_none_iff st.maps mapId).1 h a ha
      simpa using this
    simp [h0]

theorem C2_witness :
    lookupMap St.empty.maps "m1" = none ∧ "m1" ∈ ["m1"] ∧
    ((initializeMapDeferred ["m1"] (initializeMapDeferred ["m1"] St.empty "m1" 10 20 5).1
        "m1" 99 99 1).1 = (initializeMapDeferred ["m1"] St.empty "m1" 10 20 5).1 ∧
      lookupMap (initializeMapDeferred ["m1"] St.empty "m1" 10 20 5).1.maps "m1" =
        some { map := mkMap 0 10 20 5, layers := [] } ∧
      (initializeMapDeferred ["m1"] St.empty "m1" 10 20 5).1.maps.countP
        (fun p => p.1 == "m1") = 1) :=
  ⟨rfl, by simp,
   C2_reinitialize_noop St.empty ["m1"] ["m1"] "m1" 10 20 5 99 99 1 rfl (by simp)⟩

/-- C6: if, when the deferred attempt of `initialize` runs, the rendering
surface for `mapId` is still absent from the document, the attempt reports
`SurfaceNotFound` and performs no mutation: no map handle is constructed and
no entry is added to the registry. -/
theorem C6_deferred_surface_absent (dom : List String) (st : St) (mapId : String)
    (lat lng zoom : Rat) (h : mapId ∉ dom) :
    initializeMapDeferred dom st mapId lat lng zoom = (st, some .SurfaceNotFound) := by
  simp [initializeMapDeferred, h]

theorem C6_witness :
    ("m1" ∉ ([] : List String)) ∧
    initializeMapDeferred [] St.empty "m1" 10 20 5 = (St.empty, some .SurfaceNotFound) :=
  ⟨by simp, C6_deferred_surface_absent [] St.empty "m1" 10 20 5 (by simp)⟩

/-- C8 counterexample: the claim that, when no entry exists and the surface
already exists at call time, `initialize` constructs the map handle and stores
the entry synchronously within the call is false — the body of `initializeMap`
is wrapped in `setTimeout(..., 100)` unconditionally, so the synchronous call
stores nothing even when the surface is present. -/
theorem C8_sync_init_counterexample :
    ¬ (∀ (st : St) (dom : List String) (mapId : String) (lat lng zoom : Rat),
        mapId ∈ dom → lookupMap st.maps mapId = none →
        (lookupMap (initializeMap st mapId lat lng zoom).1.maps mapId).isSome = true) := by
  intro hcl
  have := hcl St.empty ["m1"] "m1" 10 20 5 (by simp) rfl
  simp [initializeMap, St.empty, lookupMap] at this

/-- C8 amended: `initialize` always defers, surface present or not: the
synchronous call leaves the state unchanged and only schedules the single
deferred attempt with the fixed 100 ms delay; the map handle is constructed
and the entry stored only when the deferred attempt runs (and finds the
surface present and no existing entry). -/
theorem C8_init_always_deferred (st : St) (dom : List String) (mapId : String)
    (lat lng zoom : Rat) :
    (initializeMap st mapId lat lng zoom).1 = st ∧
    (initializeMap st mapId lat lng zoom).2 = Pending.init mapId lat lng zoom 100 ∧
    (mapId ∈ dom → lookupMap st.maps mapId = none →
      lookupMap (initializeMapDeferred dom st mapId lat lng zoom).1.maps mapId =
        some { map := mkMap st.nextId lat lng zoom, layers := [] }) := by
  refine ⟨rfl, rfl, fun hdom hnone => ?_⟩
  simp [initializeMapDeferred, hdom, hnone, lookupMap_setMap_self]

theorem C8_witness :
    ("m1" ∈ ["m1"]) ∧ lookupMap St.empty.maps "m1" = none ∧
    lookupMap (initializeMapDeferred ["m1"] St.empty "m1" 10 20 5).1.maps "m1" =
      some { map := mkMap 0 10 20 5, layers := [] } :=
  ⟨by simp, rfl,
   (C8_init_always_deferred St.empty ["m1"] "m1" 10 20 5).2.2 (by simp) rfl⟩

/-- C3: for every id with an existing entry, `clearMap(id)` detaches from the
map every handle that was in the entry's layers list, leaves `layers` empty
afterwards, and leaves the map handle itself (identity, center/zoom viewport,
tile layers) unchanged; no error is reported. -/
theorem C3_clearMap_detaches_and_preserves_map (st : St) (mapId : String) (e : MapEntry)
    (h : lookupMap st.maps mapId = some e) :
    (clearMap st mapId).2 = none ∧
    ∃ e', lookupMap (clearMap st mapId).1.maps mapId = some e' ∧
      e'.layers = [] ∧
      (∀ l ∈ e.layers, l.1 ∉ e'.map.attached) ∧
      e'.map.hid = e.map.hid ∧ e'.map.view = e.map.view ∧ e'.map.tiles = e.map.tiles := by
  refine ⟨by simp [clearMap, h], ?_⟩
  refine ⟨{ map := { e.map with attached := removeLayers e.map.attached e.layers }
            layers := [] }, ?_, rfl, ?_, rfl, rfl, rfl⟩
  · simp [clearMap, h, lookupMap_setMap_self]
  · intro l hl
    exact not_mem_removeLayers _ _ _ hl

theorem C3_witness :
    lookupMap sampleSt.maps "m1" = some sampleEntry ∧
    ((clearMap sampleSt "m1").2 = none ∧
      ∃ e', lookupMap (clearMap sampleSt "m1").1.maps "m1" = some e' ∧
        e'.layers = [] ∧
        (∀ l ∈ sampleEntry.layers, l.1 ∉ e'.map.attached) ∧
        e'.map.hid = sampleEntry.map.hid ∧ e'.map.view = sampleEntry.map.view ∧
        e'.map.tiles = sampleEntry.map.tiles) :=
  ⟨by decide, C3_clearMap_detaches_and_preserves_map sampleSt "m1" sampleEntry (by decide)⟩

/-- C4: for every id with an existing entry and every input sequence of `N`
marker records, `addMarkers(id, markers)` appends exactly `N` new handles to
the entry's layers list — one per input element, in input order, after the
handles already present. -/
theorem C4_addMarkers_appends_in_order (st : St) (mapId : String) (e : MapEntry)
    (ms : List MarkerInput) (h : lookupMap st.maps mapId = some e) :
    (addMarkers st mapId ms).2 = none ∧
    ∃ e', lookupMap (addMarkers st mapId ms).1.maps mapId = some e' ∧
      e'.layers = e.layers ++ mkMarkers st.nextId ms ∧
      (mkMarkers st.nextId ms).length = ms.length ∧
      ∀ i : Fin ms.length,
        (mkMarkers st.nextId ms).get (i.cast (mkMarkers_length st.nextId ms).symm) =
          mkMarkerLayer (st.nextId + i.1) (ms.get i) := by
  refine ⟨by simp [addMarkers, h], ?_⟩
  refine ⟨(ms.foldl addMarkersStep (e, st.nextId)).1, ?_, ?_, mkMarkers_length _ _,
    fun i => mkMarkers_get st.nextId ms i.1 i.2⟩
  · simp [addMarkers, h, lookupMap_setMap_self]
  · rw [addMarkers_foldl]

theorem C4_witness :
    lookupMap sampleSt.maps "m1" = some sampleEntry ∧
    ((addMarkers sampleSt "m1" [⟨1, 1, none, none⟩, ⟨2, 2, none, none⟩]).2 = none ∧
      ∃ e', lookupMap
          (addMarkers sampleSt "m1" [⟨1, 1, none, none⟩, ⟨2, 2, none, none⟩]).1.maps "m1"
            = some e' ∧
        e'.layers = sampleEntry.layers ++
          mkMarkers sampleSt.nextId [⟨1, 1, none, none⟩, ⟨2, 2, none, none⟩] ∧
        (mkMarkers sampleSt.nextId [⟨1, 1, none, none⟩, ⟨2, 2, none, none⟩]).length =
          ([⟨1, 1, none, none⟩, ⟨2, 2, none, none⟩] : List MarkerInput).length ∧
        ∀ i : Fin ([⟨1, 1, none, none⟩, ⟨2, 2, none, none⟩] : List MarkerInput).length,
          (mkMarkers sampleSt.nextId [⟨1, 1, none, none⟩, ⟨2, 2, none, none⟩]).get
              (i.cast (mkMarkers_length sampleSt.nextId
                [⟨1, 1, none, none⟩, ⟨2, 2, none, none⟩]).symm) =
            mkMarkerLayer (sampleSt.nextId + i.1)
              (([⟨1, 1, none, none⟩, ⟨2, 2, none, none⟩] : List MarkerInput).get i)) :=
  ⟨by decide, C4_addMarkers_appends_in_order sampleSt "m1" sampleEntry
    [⟨1, 1, none, none⟩, ⟨2, 2, none, none⟩] (by decide)⟩

/-- C5: for every id with an existing entry — if the layers list is non-empty,
`fitBounds(id)` computes the bounding region covering all current layer
coordinates, pads it by the fixed fraction 1/10, and applies exactly that
region as the map's new viewport, leaving the layers list, the map identity,
the tiles, the attachment record, every other entry and the allocator
unchanged; if the layers list is empty, `fitBounds(id)` is a no-op. -/
theorem C5_fitBounds_pads_and_applies (st : St) (mapId : String) (e : MapEntry)
    (h : lookupMap st.maps mapId = some e) :
    (e.layers = [] → fitBounds st mapId = (st, none)) ∧
    (e.layers ≠ [] →
      ∃ b, groupBounds e.layers = some b ∧
        (∀ l ∈ e.layers, inBounds b (layerPt l)) ∧
        (fitBounds st mapId).2 = none ∧
        (fitBounds st mapId).1.nextId = st.nextId ∧
        (∀ k, k ≠ mapId → lookupMap (fitBounds st mapId).1.maps k = lookupMap st.maps k) ∧
        ∃ e', lookupMap (fitBounds st mapId).1.maps mapId = some e' ∧
          e'.layers = e.layers ∧
          e'.map.hid = e.map.hid ∧ e'.map.tiles = e.map.tiles ∧
          e'.map.attached = e.map.attached ∧
          e'.map.view = .fitted (padBounds b (1 / 10)).south (padBounds b (1 / 10)).west
            (padBounds b (1 / 10)).north (padBounds b (1 / 10)).east) := by
  constructor
  · intro hnil
    simp [fitBounds, h, hnil]
  · intro hne
    obtain ⟨l₀, ls₀, hL⟩ := List.exists_cons_of_ne_nil hne
    obtain ⟨b, hb⟩ : ∃ b, groupBounds e.layers = some b := by
      rw [hL]; exact ⟨_, rfl⟩
    have hlen : 0 < e.layers.length := List.length_pos.2 hne
    refine ⟨b, hb, fun l hl => groupBounds_covers _ _ hb l hl, ?_, ?_, ?_, ?_⟩
    · simp [fitBounds, h, hlen, hb]
    · simp [fitBounds, h, hlen, hb]
    · intro k hk
      simp [fitBounds, h, hlen, hb, lookupMap_setMap_ne _ _ _ _ hk]
    · refine ⟨{ map := { e.map with
                  view := .fitted (padBounds b (1 / 10)).south (padBounds b (1 / 10)).west
                    (padBounds b (1 / 10)).north (padBounds b (1 / 10)).east }
                layers := e.layers }, ?_, rfl, rfl, rfl, rfl, rfl⟩
      simp [fitBounds, h, hlen, hb, lookupMap_setMap_self]

theorem C5_witness :
    lookupMap sampleSt.maps "m1" = some sampleEntry ∧ sampleEntry.layers ≠ [] ∧
    (∃ b, groupBounds sampleEntry.layers = some b ∧
      (∀ l ∈ sampleEntry.layers, inBounds b (layerPt l)) ∧
      (fitBounds sampleSt "m1").2 = none ∧
      (fitBounds sampleSt "m1").1.nextId = sampleSt.nextId ∧
      (∀ k, k ≠ "m1" → lookupMap (fitBounds sampleSt "m1").1.maps k =
        lookupMap sampleSt.maps k) ∧
      ∃ e', lookupMap (fitBounds sampleSt "m1").1.maps "m1" = some e' ∧
        e'.layers = sampleEntry.layers ∧
        e'.map.hid = sampleEntry.map.hid ∧ e'.map.tiles = sampleEntry.map.tiles ∧
        e'.map.attached = sampleEntry.map.attached ∧
        e'.map.view = .fitted (padBounds b (1 / 10)).south (padBounds b (1 / 10)).west
          (padBounds b (1 / 10)).north (padBounds b (1 / 10)).east) :=
  ⟨by decide, by decide,
   (C5_fitBounds_pads_and_applies sampleSt "m1" sampleEntry (by decide)).2 (by decide)⟩

/-- C9: for every id with an existing entry, `addMarker` binds a popup to the
created marker iff `popupContent` is truthy; an empty-string, null or undefined
`popupContent` yields a marker with no popup, while the marker is still
appended to the entry's layers list. -/
theorem C9_addMarker_popup_iff_truthy (st : St) (mapId : String) (e : MapEntry)
    (lat lng : Rat) (title popupContent : Option String)
    (h : lookupMap st.maps mapId = some e) :
    (addMarker st mapId lat lng title popupContent).2 = none ∧
    ∃ e' d, lookupMap (addMarker st mapId lat lng title popupContent).1.maps mapId = some e' ∧
      e'.layers = e.layers ++ [(st.nextId, d)] ∧
      (layerPopup d).isSome = strTruthy popupContent ∧
      (strTruthy popupContent = true → layerPopup d = popupContent) ∧
      (popupContent = none ∨ popupContent = some "" → layerPopup d = none) := by
  refine ⟨by simp [addMarker, h], ?_⟩
  refine ⟨{ map := { e.map with attached := e.map.attached ++ [st.nextId] }
            layers := e.layers ++
              [(st.nextId, .marker lat lng title
                  (if strTruthy popupContent then popupContent else none))] },
          .marker lat lng title (if strTruthy popupContent then popupContent else none),
          ?_, rfl, ?_, ?_, ?_⟩
  · simp [addMarker, h, lookupMap_setMap_self]
  · cases popupContent with
    | none => simp [layerPopup, strTruthy]
    | some s =>
        by_cases hs : s = "" <;> simp [layerPopup, strTruthy, hs]
  · intro ht
    simp [layerPopup, ht]
  · rintro (rfl | rfl) <;> simp [layerPopup, strTruthy]

theorem C9_witness :
    lookupMap sampleSt.maps "m1" = some sampleEntry ∧
    ((addMarker sampleSt "m1" 3 4 (some "t2") (some "")).2 = none ∧
      ∃ e' d, lookupMap (addMarker sampleSt "m1" 3 4 (some "t2") (some "")).1.maps "m1"
          = some e' ∧
        e'.layers = sampleEntry.layers ++ [(sampleSt.nextId, d)] ∧
        (layerPopup d).isSome = strTruthy (some "") ∧
        (strTruthy (some "") = true → layerPopup d = some "") ∧
        (some "" = none ∨ (some "" : Option String) = some "" → layerPopup d = none)) :=
  ⟨by decide,
   C9_addMarker_popup_iff_truthy sampleSt "m1" sampleEntry 3 4 (some "t2") (some "")
     (by decide)⟩

/-- C10: no operation ever removes or replaces a registry entry — for every id
`k` with an entry, after any call to any operation (targeting any id), the
entry for `k` is still present with the same map handle identity; a repeated
`initialize` (deferred attempt included, surface present or absent) leaves the
entry wholly unchanged. -/
theorem C10_entries_persist (st : St) (k : String) (e : MapEntry)
    (h : lookupMap st.maps k = some e) :
    (∀ mapId lat lng zoom,
        lookupMap (initializeMap st mapId lat lng zoom).1.maps k = some e) ∧
    (∀ dom mapId lat lng zoom,
        lookupMap (initializeMapDeferred dom st mapId lat lng zoom).1.maps k = some e) ∧
    (∀ mapId lat lng title popup,
        (lookupMap (addMarker st mapId lat lng title popup).1.maps k).map
          (fun x => x.map.hid) = some e.map.hid) ∧
    (∀ mapId ms,
        (lookupMap (addMarkers st mapId ms).1.maps k).map (fun x => x.map.hid) =
          some e.map.hid) ∧
    (∀ mapId lat lng r c fc fo,
        (lookupMap (addCircle st mapId lat lng r c fc fo).1.maps k).map
          (fun x => x.map.hid) = some e.map.hid) ∧
    (∀ mapId,
        (lookupMap (clearMap st mapId).1.maps k).map (fun x => x.map.hid) =
          some e.map.hid) ∧
    (∀ mapId,
        (lookupMap (fitBounds st mapId).1.maps k).map (fun x => x.map.hid) =
          some e.map.hid) := by
  refine ⟨?_, ?_, ?_, ?_, ?_, ?_, ?_⟩
  · intro mapId lat lng zoom
    simpa [initializeMap] using h
  · intro dom mapId lat lng zoom
    by_cases hdom : mapId ∈ dom
    · cases hm : lookupMap st.maps mapId with
      | some e₁ => simp [initializeMapDeferred, hdom, hm, h]
      | none =>
          have hk : k ≠ mapId := fun heq => by rw [heq, hm] at h; cases h
          simp [initializeMapDeferred, hdom, hm, lookupMap_setMap_ne _ _ _ _ hk, h]
    · simp [initializeMapDeferred, hdom, h]
  · intro mapId lat lng title popup
    by_cases hkm : mapId = k
    · subst hkm
      simp [addMarker, h, lookupMap_setMap_self]
    · have hk : k ≠ mapId := fun heq => hkm heq.symm
      cases hm : lookupMap st.maps mapId with
      | none => simp [addMarker, hm, h]
      | some e₁ => simp [addMarker, hm, lookupMap_setMap_ne _ _ _ _ hk, h]
  · intro mapId ms
    by_cases hkm : mapId = k
    · subst hkm
      have hf := addMarkers_foldl e st.nextId ms
      simp [addMarkers, h, hf, lookupMap_setMap_self]
    · have hk : k ≠ mapId := fun heq => hkm heq.symm
      cases hm : lookupMap st.maps mapId with
      | none => simp [addMarkers, hm, h]
      | some e₁ => simp [addMarkers, hm, lookupMap_setMap_ne _ _ _ _ hk, h]
  · intro mapId lat lng r c fc fo
    by_cases hkm : mapId = k
    · subst hkm
      simp [addCircle, h, lookupMap_setMap_self]
    · have hk : k ≠ mapId := fun heq => hkm heq.symm
      cases hm : lookupMap st.maps mapId with
      | none => simp [addCircle, hm, h]
      | some e₁ => simp [addCircle, hm, lookupMap_setMap_ne _ _ _ _ hk, h]
  · intro mapId
    by_cases hkm : mapId = k
    · subst hkm
      simp [clearMap, h, lookupMap_setMap_self]
    · have hk : k ≠ mapId := fun heq => hkm heq.symm
      cases hm : lookupMap st.maps mapId with
      | none => simp [clearMap, hm, h]
      | some e₁ => simp [clearMap, hm, lookupMap_setMap_ne _ _ _ _ hk, h]
  · intro mapId
    by_cases hkm : mapId = k
    · subst hkm
      by_cases hlen : 0 < e.layers.length
      · cases hb : groupBounds e.layers with
        | none => simp [fitBounds, h, hlen, hb]
        | some b => simp [fitBounds, h, hlen, hb, lookupMap_setMap_self]
      · simp [fitBounds, h, hlen]
    · have hk : k ≠ mapId := fun heq => hkm heq.symm
      cases hm : lookupMap st.maps mapId with
      | none => simp [fitBounds, hm, h]
      | some e₁ =>
          by_cases hlen : 0 < e₁.layers.length
          · cases hb : groupBounds e₁.layers with
            | none => simp [fitBounds, hm, hlen, hb, h]
            | some b => simp [fitBounds, hm, hlen, hb, lookupMap_setMap_ne _ _ _ _ hk, h]
          · simp [fitBounds, hm, hlen, h]

theorem C10_witness :
    lookupMap sampleSt.maps "m1" = some sampleEntry ∧
    lookupMap (initializeMapDeferred [] sampleSt "m1" 99 99 1).1.maps "m1" =
      some sampleEntry ∧
    lookupMap (initializeMapDeferred ["m1"] sampleSt "m1" 99 99 1).1.maps "m1" =
      some sampleEntry ∧
    (lookupMap (addMarker sampleSt "m1" 1 2 none none).1.maps "m1").map
      (fun x => x.map.hid) = some sampleEntry.map.hid ∧
    (lookupMap (clearMap sampleSt "m1").1.maps "m1").map (fun x => x.map.hid) =
      some sampleEntry.map.hid ∧
    (lookupMap (fitBounds sampleSt "m1").1.maps "m1").map (fun x => x.map.hid) =
      some sampleEntry.map.hid :=
  ⟨by decide,
   (C10_entries_persist sampleSt "m1" sampleEntry (by decide)).2.1 [] "m1" 99 99 1,
   (C10_entries_persist sampleSt "m1" sampleEntry (by decide)).2.1 ["m1"] "m1" 99 99 1,
   (C10_entries_persist sampleSt "m1" sampleEntry (by decide)).2.2.1 "m1" 1 2 none none,
   (C10_entries_persist sampleSt "m1" sampleEntry (by decide)).2.2.2.2.2.1 "m1",
   (C10_entries_persist sampleSt "m1" sampleEntry (by decide)).2.2.2.2.2.2 "m1"⟩

/-! ### Invariant preservation (C7) -/

theorem RegInv_setMap_extend (st : St) (mapId : String) (e : MapEntry)
    (news : List Layer) (n' : Nat)
    (hl : lookupMap st.maps mapId = some e) (hinv : RegInv st)
    (hn : st.nextId ≤ n')
    (hids : ∀ l ∈ news, st.nextId ≤ l.1 ∧ l.1 < n') :
    RegInv { maps := setMap st.maps mapId
               { map := { e.map with attached := e.map.attached ++ news.map Prod.fst }
                 layers := e.layers ++ news }
             nextId := n' } := by
  obtain ⟨hOwn, hFresh⟩ := hinv
  have hme : (mapId, e) ∈ st.maps := lookupMap_mem _ _ _ hl
  constructor
  · intro p hp l hlp
    rcases mem_setMap _ _ _ _ hp with rfl | hpO
    · rcases List.mem_append.1 hlp with hle | hln
      · refine ⟨List.mem_append.2 (Or.inl (hOwn _ hme l hle).1), ?_⟩
        intro q hq hqne
        rcases mem_setMap _ _ _ _ hq with rfl | hqO
        · exact absurd rfl hqne
        · exact (hOwn _ hme l hle).2 q hqO hqne
      · refine ⟨List.mem_append.2 (Or.inr (List.mem_map_of_mem _ hln)), ?_⟩
        intro q hq hqne
        rcases mem_setMap _ _ _ _ hq with rfl | hqO
        · exact absurd rfl hqne
        · intro hmem
          have h1 := (hFresh q hqO).1 l.1 hmem
          have h2 := (hids l hln).1
          omega
    · refine ⟨(hOwn p hpO l hlp).1, ?_⟩
      intro q hq hqne
      rcases mem_setMap _ _ _ _ hq with rfl | hqO
      · intro hmem
        rcases List.mem_append.1 hmem with hold | hnew
        · exact (hOwn p hpO l hlp).2 (mapId, e) hme hqne hold
        · obtain ⟨l', hl', hfst⟩ := List.mem_map.1 hnew
          have h1 := (hFresh p hpO).2 l hlp
          have h2 := (hids l' hl').1
          omega
      · exact (hOwn p hpO l hlp).2 q hqO hqne
  · intro p hp
    rcases mem_setMap _ _ _ _ hp with rfl | hpO
    · constructor
      · intro x hx
        show x < n'
        rcases List.mem_append.1 hx with hold | hnew
        · have := (hFresh _ hme).1 x hold
          omega
        · obtain ⟨l', hl', hfst⟩ := List.mem_map.1 hnew
          have := (hids l' hl').2
          omega
      · intro l hlp
        show l.1 < n'
        rcases List.mem_append.1 hlp with hle | hln
        · have := (hFresh _ hme).2 l hle
          omega
        · exact (hids l hln).2
    · constructor
      · intro x hx
        show x < n'
        have := (hFresh p hpO).1 x hx
        omega
      · intro l hlp
        show l.1 < n'
        have := (hFresh p hpO).2 l hlp
        omega

theorem RegInv_setMap_clear (st : St) (mapId : String) (e : MapEntry)
    (hl : lookupMap st.maps mapId = some e) (hinv : RegInv st) :
    RegInv { maps := setMap st.maps mapId
               { map := { e.map with attached := removeLayers e.map.attached e.layers }
                 layers := [] }
             nextId := st.nextId } := by
  obtain ⟨hOwn, hFresh⟩ := hinv
  have hme : (mapId, e) ∈ st.maps := lookupMap_mem _ _ _ hl
  constructor
  · intro p hp l hlp
    rcases mem_setMap _ _ _ _ hp with rfl | hpO
    · simp at hlp
    · refine ⟨(hOwn p hpO l hlp).1, ?_⟩
      intro q hq hqne
      rcases mem_setMap _ _ _ _ hq with rfl | hqO
      · intro hmem
        exact (hOwn p hpO l hlp).2 (mapId, e) hme hqne
          (removeLayers_subset e.layers e.map.attached hmem)
      · exact (hOwn p hpO l hlp).2 q hqO hqne
  · intro p hp
    rcases mem_setMap _ _ _ _ hp with rfl | hpO
    · refine ⟨?_, by simp⟩
      intro x hx
      exact (hFresh _ hme).1 x (removeLayers_subset _ _ hx)
    · exact hFresh p hpO

theorem RegInv_setMap_view (st : St) (mapId : String) (e : MapEntry) (v : View)
    (hl : lookupMap st.maps mapId = some e) (hinv : RegInv st) :
    RegInv { maps := setMap st.maps mapId
               { map := { e.map with view := v }, layers := e.layers }
             nextId := st.nextId } := by
  obtain ⟨hOwn, hFresh⟩ := hinv
  have hme : (mapId, e) ∈ st.maps := lookupMap_mem _ _ _ hl
  constructor
  · intro p hp l hlp
    rcases mem_setMap _ _ _ _ hp with rfl | hpO
    · refine ⟨(hOwn _ hme l hlp).1, ?_⟩
      intro q hq hqne
      rcases mem_setMap _ _ _ _ hq with rfl | hqO
      · exact absurd rfl hqne
      · exact (hOwn _ hme l hlp).2 q hqO hqne
    · refine ⟨(hOwn p hpO l hlp).1, ?_⟩
      intro q hq hqne
      rcases mem_setMap _ _ _ _ hq with rfl | hqO
      · exact (hOwn p hpO l hlp).2 (mapId, e) hme hqne
      · exact (hOwn p hpO l hlp).2 q hqO hqne
  · intro p hp
    rcases mem_setMap _ _ _ _ hp with rfl | hpO
    · exact ⟨(hFresh _ hme).1, (hFresh _ hme).2⟩
    · exact hFresh p hpO

theorem RegInv_setMap_new (st : St) (mapId : String) (lat lng zoom : Rat)
    (hinv : RegInv st) :
    RegInv { maps := setMap st.maps mapId
               { map := mkMap st.nextId lat lng zoom, layers := [] }
             nextId := st.nextId + 1 } := by
  obtain ⟨hOwn, hFresh⟩ := hinv
  constructor
  · intro p hp l hlp
    rcases mem_setMap _ _ _ _ hp with rfl | hpO
    · simp at hlp
    · refine ⟨(hOwn p hpO l hlp).1, ?_⟩
      intro q hq hqne
      rcases mem_setMap _ _ _ _ hq with rfl | hqO
      · simp [mkMap]
      · exact (hOwn p hpO l hlp).2 q hqO hqne
  · intro p hp
    rcases mem_setMap _ _ _ _ hp with rfl | hpO
    · exact ⟨by intro x hx; simp [mkMap] at hx, by intro l hlp; simp at hlp⟩
    · refine ⟨?_, ?_⟩
      · intro x hx
        show x < st.nextId + 1
        have := (hFresh p hpO).1 x hx
        omega
      · intro l hlp
        show l.1 < st.nextId + 1
        have := (hFresh p hpO).2 l hlp
        omega

/-- C7: the registry invariant — every layer handle in an entry's layers list
is attached to the map handle of that same entry and never to the map handle
of a different entry (together with allocator freshness) — is preserved by
every operation of the module. -/
theorem C7_registry_invariant_preserved (st : St) (hinv : RegInv st) :
    (∀ mapId lat lng zoom, RegInv (initializeMap st mapId lat lng zoom).1) ∧
    (∀ dom mapId lat lng zoom, RegInv (initializeMapDeferred dom st mapId lat lng zoom).1) ∧
    (∀ mapId lat lng title popup, RegInv (addMarker st mapId lat lng title popup).1) ∧
    (∀ mapId ms, RegInv (addMarkers st mapId ms).1) ∧
    (∀ mapId lat lng r c fc fo, RegInv (addCircle st mapId lat lng r c fc fo).1) ∧
    (∀ mapId, RegInv (clearMap st mapId).1) ∧
    (∀ mapId, RegInv (fitBounds st mapId).1) := by
  refine ⟨?_, ?_, ?_, ?_, ?_, ?_, ?_⟩
  · intro mapId lat lng zoom
    exact hinv
  · intro dom mapId lat lng zoom
    by_cases hdom : mapId ∈ dom
    · cases hm : lookupMap st.maps mapId with
      | some e => simpa [initializeMapDeferred, hdom, hm] using hinv
      | none =>
          simpa [initializeMapDeferred, hdom, hm] using
            RegInv_setMap_new st mapId lat lng zoom hinv
    · simpa [initializeMapDeferred, hdom] using hinv
  · intro mapId lat lng title popup
    cases hm : lookupMap st.maps mapId with
    | none => simpa [addMarker, hm] using hinv
    | some e =>
        have hext := RegInv_setMap_extend st mapId e
          [(st.nextId, .marker lat lng title (if strTruthy popup then popup else none))]
          (st.nextId + 1) hm hinv (Nat.le_succ _)
          (by
            intro l hl
            rcases List.mem_singleton.1 hl with rfl
            exact ⟨Nat.le_refl _, Nat.lt_succ_self _⟩)
        simpa [addMarker, hm] using hext
  · intro mapId ms
    cases hm : lookupMap st.maps mapId with
    | none => simpa [addMarkers, hm] using hinv
    | some e =>
        have hext := RegInv_setMap_extend st mapId e (mkMarkers st.nextId ms)
          (st.nextId + ms.length) hm hinv (Nat.le_add_right _ _)
          (fun l hl => mem_mkMarkers_fst st.nextId ms l hl)
        simpa [addMarkers, hm, addMarkers_foldl] using hext
  · intro mapId lat lng r c fc fo
    cases hm : lookupMap st.maps mapId with
    | none => simpa [addCircle, hm] using hinv
    | some e =>
        have hext := RegInv_setMap_extend st mapId e
          [(st.nextId, .circle lat lng r c fc fo)]
          (st.nextId + 1) hm hinv (Nat.le_succ _)
          (by
            intro l hl
            rcases List.mem_singleton.1 hl with rfl
            exact ⟨Nat.le_refl _, Nat.lt_succ_self _⟩)
        simpa [addCircle, hm] using hext
  · intro mapId
    cases hm : lookupMap st.maps mapId with
    | none => simpa [clearMap, hm] using hinv
    | some e => simpa [clearMap, hm] using RegInv_setMap_clear st mapId e hm hinv
  · intro mapId
    cases hm : lookupMap st.maps mapId with
    | none => simpa [fitBounds, hm] using hinv
    | some e =>
        by_cases hlen : 0 < e.layers.length
        · cases hb : groupBounds e.layers with
          | none => simpa [fitBounds, hm, hlen, hb] using hinv
          | some b =>
              simpa [fitBounds, hm, hlen, hb] using
                RegInv_setMap_view st mapId e
                  (.fitted (padBounds b (1 / 10)).south (padBounds b (1 / 10)).west
                    (padBounds b (1 / 10)).north (padBounds b (1 / 10)).east) hm hinv
        · simpa [fitBounds, hm, hlen] using hinv

theorem C7_witness :
    RegInv sampleSt ∧
    RegInv (addMarker sampleSt "m1" 1 2 none none).1 ∧
    RegInv (clearMap sampleSt "m1").1 ∧
    RegInv (fitBounds sampleSt "m1").1 :=
  ⟨by constructor <;> simp [LayersOwn, IdsFresh, sampleSt, sampleEntry],
   (C7_registry_invariant_preserved sampleSt
     (by constructor <;> simp [LayersOwn, IdsFresh, sampleSt, sampleEntry])).2.2.1
       "m1" 1 2 none none,
   (C7_registry_invariant_preserved sampleSt
     (by constructor <;> simp [LayersOwn, IdsFresh, sampleSt, sampleEntry])).2.2.2.2.2.1 "m1",
   (C7_registry_invariant_preserved sampleSt
     (by constructor <;> simp [LayersOwn, IdsFresh, sampleSt, sampleEntry])).2.2.2.2.2.2 "m1"⟩
